import Mathlib

/-!
Verification of the BullGateway API gateway against its specification.

The development shallowly embeds the relevant Rust sources:

* the embedded key/value store (bullg-core/src/core/memory.rs),
* the snapshot-to-router projection and the service trie
  (bullg-core/src/models/services.rs, bullg-core/src/models/gateway.rs),
* the request pipeline and plugin chain (bullg-gateway/src/lib.rs,
  bullg-plugin-api/src/lib.rs, bullg-plugins/src/lib.rs),
* the control-plane streaming loop (bullg-control-sync/src/lib.rs).

Machine integers, hash maps and external libraries are modelled explicitly:
hash maps become association lists (iteration is modelled as insertion
order; the Rust HashMap iterates in an unspecified order, which no theorem
below depends on in an essential way), byte buffers become an abstract type
produced by an abstract serialization codec, and panics that are provably
unreachable on well-formed stores are folded into the error channel.
-/

set_option autoImplicit false

namespace BullGateway

/-! ## JSON-like structured values

Model of serde_json::Value as used by the store and the plugin
configurations.  Floating-point numbers never occur in the verified
claims, so the numeric case carries an integer. -/

inductive Val where
  | null : Val
  | bool (b : Bool) : Val
  | int (n : Int) : Val
  | str (s : String) : Val
  | arr (items : List Val) : Val
  | obj (fields : List (String × Val)) : Val

instance : Inhabited Val := ⟨Val.null⟩

namespace Val

/-- Embeds Value::get on objects: first field with the given name. -/
def get (v : Val) (k : String) : Option Val :=
  match v with
  | .obj fields => (fields.find? (fun kv => kv.1 == k)).map (·.2)
  | _ => none

/-- Embeds Value::as_str. -/
def asStr (v : Val) : Option String :=
  match v with
  | .str s => some s
  | _ => none

/-- Embeds Value::as_bool. -/
def asBool (v : Val) : Option Bool :=
  match v with
  | .bool b => some b
  | _ => none

/-- Embeds Value::as_u64 (defined on non-negative integers). -/
def asU64 (v : Val) : Option Nat :=
  match v with
  | .int n => if 0 ≤ n then some n.toNat else none
  | _ => none

/-- Embeds serde_json object insertion (Map::insert): replace the value of
an existing field in place, otherwise append the new field. -/
def objInsert (fields : List (String × Val)) (k : String) (v : Val) :
    List (String × Val) :=
  match fields with
  | [] => [(k, v)]
  | kv :: rest =>
    if kv.1 == k then (k, v) :: rest else kv :: objInsert rest k v

/-- Lookup of a field in an object field list. -/
def objLookup : List (String × Val) → String → Option Val
  | [], _ => none
  | kv :: rest, k => if kv.1 == k then some kv.2 else objLookup rest k

end Val

/-! ## Association-list maps

The DashMap / HashMap containers of the source are modelled as
association lists with unique keys maintained by replace-or-append
insertion. -/

/-- Lookup in an association list (first match). -/
def alookup {α : Type} : List (String × α) → String → Option α
  | [], _ => none
  | kv :: rest, k => if kv.1 == k then some kv.2 else alookup rest k

/-- Insert into an association list: replace in place, or append. -/
def ainsert {α : Type} (l : List (String × α)) (k : String) (v : α) :
    List (String × α) :=
  match l with
  | [] => [(k, v)]
  | kv :: rest => if kv.1 == k then (k, v) :: rest else kv :: ainsert rest k v

/-- Remove a key from an association list (map removal: a map holds each
key at most once, so this is filtering the key out). -/
def aerase {α : Type} (l : List (String × α)) (k : String) :
    List (String × α) :=
  l.filter (fun kv => !(kv.1 == k))

/-! ## Character-level string primitives

The str primitives of the source, written out over the character list so
that concrete instances evaluate inside the kernel. -/

/-- Embeds str::starts_with. -/
def strStartsWith (s p : String) : Bool := p.data.isPrefixOf s.data

/-- Lower-casing used by the case-insensitive header map. -/
def strToLower (s : String) : String := ⟨s.data.map Char.toLower⟩

/-- Embeds str::strip_prefix's remainder (drop the first n characters). -/
def strDrop (s : String) (n : Nat) : String := ⟨s.data.drop n⟩

/-! ## Key/value store (bullg-core/src/core/memory.rs)

Records are serialized with rmp_serde (MessagePack).  The serialization
is modelled as an abstract codec into an abstract byte type; rmp_serde
round-trips every serde_json::Value, which is the codec law used by the
round-trip theorems.  The LMDB environment becomes a map from sub-database
name to a key/value map; the in-process backend is a flat map keyed by
db ++ "/" ++ key exactly as in the source. -/

/-- Abstract serialization codec standing for rmp_serde over the byte
type β. -/
structure Codec (β : Type) where
  enc : Val → β
  dec : β → Option Val

/-- The codec law rmp_serde satisfies: decoding an encoding succeeds and
returns the original value. -/
def Codec.Faithful {β : Type} (c : Codec β) : Prop :=
  ∀ v : Val, c.dec (c.enc v) = some v

/-- Trivial concrete codec used to instantiate witnesses: serialized bytes
are the values themselves. -/
def idCodec : Codec Val where
  enc := id
  dec := some

theorem idCodec_faithful : idCodec.Faithful := fun _ => rfl

/-- Error kinds of the store operations (the source uses anyhow messages:
"Key already exists", "Key does not exist", "Cannot patch non-object
value", "Key ... not found", plus propagated decode errors). -/
inductive KVErr where
  | alreadyExists : KVErr
  | notFound : KVErr
  | typeMismatch : KVErr
  | decode : KVErr
  deriving Repr, DecidableEq

/-- Embeds enum MemoryKind: the persistent LMDB backend (sub-databases by
name) and the in-process DashMap backend (flat map). -/
inductive MemoryKind (β : Type) where
  | lmdb (dbs : List (String × List (String × β))) : MemoryKind β
  | mem (map : List (String × β)) : MemoryKind β

/-- Embeds struct Memory. -/
structure Memory (β : Type) where
  kind : MemoryKind β

namespace Memory

/-- Embeds Memory::make_key. -/
def make_key (db key : String) : String := db ++ "/" ++ key

/-- Fresh in-process store (Memory::memory). -/
def memory {β : Type} : Memory β := ⟨.mem []⟩

/-- Fresh persistent store (Memory::open_lmdb on an empty directory). -/
def open_lmdb {β : Type} : Memory β := ⟨.lmdb []⟩

/-- Raw lookup of the stored bytes for (db, key); embeds Memory::get_raw.
On the LMDB backend a missing sub-database reads as empty (get_db creates
the database lazily). -/
def get_raw {β : Type} (m : Memory β) (db key : String) : Option β :=
  match m.kind with
  | .lmdb dbs => alookup ((alookup dbs db).getD []) key
  | .mem map => alookup map (make_key db key)

/-- Embeds Memory::put (upsert).  LMDB: write into the (lazily created)
sub-database; in-process: insert under the flat key. -/
def put {β : Type} (c : Codec β) (m : Memory β) (db key : String) (v : Val) :
    Memory β :=
  match m.kind with
  | .lmdb dbs =>
    ⟨.lmdb (ainsert dbs db (ainsert ((alookup dbs db).getD []) key (c.enc v)))⟩
  | .mem map => ⟨.mem (ainsert map (make_key db key) (c.enc v))⟩

/-- Embeds Memory::get.  A stored byte string that fails to decode is a
data error: the LMDB arm propagates it, the in-process arm panics on it;
both are modelled as the decode error (unreachable on well-formed
stores). -/
def get {β : Type} (c : Codec β) (m : Memory β) (db key : String) :
    Except KVErr (Option Val) :=
  match m.get_raw db key with
  | none => .ok none
  | some b =>
    match c.dec b with
    | some v => .ok (some v)
    | none => .error .decode

/-- Embeds Memory::exists (get::<Value> is_some). -/
def existsKey {β : Type} (c : Codec β) (m : Memory β) (db key : String) :
    Except KVErr Bool :=
  (Memory.get c m db key).map Option.isSome

/-- Embeds Memory::delete (idempotent removal). -/
def delete {β : Type} (m : Memory β) (db key : String) : Memory β :=
  match m.kind with
  | .lmdb dbs => ⟨.lmdb (ainsert dbs db (aerase ((alookup dbs db).getD []) key))⟩
  | .mem map => ⟨.mem (aerase map (make_key db key))⟩

/-- Embeds Memory::add: bail with the already-exists error if the key is
present, otherwise put.  The pair carries the store after the call (the
Rust method mutates in place; on bail the store is untouched). -/
def add {β : Type} (c : Codec β) (m : Memory β) (db key : String) (v : Val) :
    Except KVErr Unit × Memory β :=
  match Memory.existsKey c m db key with
  | .error e => (.error e, m)
  | .ok true => (.error .alreadyExists, m)
  | .ok false => (.ok (), Memory.put c m db key v)

/-- Embeds Memory::update: bail with the not-found error if the key is
absent, otherwise put. -/
def update {β : Type} (c : Codec β) (m : Memory β) (db key : String) (v : Val) :
    Except KVErr Unit × Memory β :=
  match Memory.existsKey c m db key with
  | .error e => (.error e, m)
  | .ok false => (.error .notFound, m)
  | .ok true => (.ok (), Memory.put c m db key v)

/-- Embeds the field-update loop of Memory::patch (serde_json object
insertion for each listed field, in order). -/
def applyUpdates (fields : List (String × Val)) (updates : List (String × Val)) :
    List (String × Val) :=
  updates.foldl (fun fs kv => Val.objInsert fs kv.1 kv.2) fields

/-- Value written by the last update listed for a field, if any; used to
state the specification of applyUpdates. -/
def lastUpdate (updates : List (String × Val)) (f : String) : Option Val :=
  (updates.reverse.find? (fun kv => kv.1 == f)).map (·.2)

/-- Embeds Memory::patch: read, require a structured object, apply the
field updates, write back; bail with not-found / type-mismatch otherwise
(leaving the store untouched). -/
def patch {β : Type} (c : Codec β) (m : Memory β) (db key : String)
    (updates : List (String × Val)) : Except KVErr Unit × Memory β :=
  match Memory.get c m db key with
  | .error e => (.error e, m)
  | .ok none => (.error .notFound, m)
  | .ok (some (Val.obj fields)) =>
    (.ok (), Memory.put c m db key (Val.obj (Memory.applyUpdates fields updates)))
  | .ok (some _) => (.error .typeMismatch, m)

/-- Well-formedness: every stored byte string decodes.  Every store whose
contents were produced by put through a faithful codec is well formed. -/
def wf {β : Type} (c : Codec β) (m : Memory β) : Bool :=
  match m.kind with
  | .lmdb dbs => dbs.all (fun d => d.2.all (fun kv => (c.dec kv.2).isSome))
  | .mem map => map.all (fun kv => (c.dec kv.2).isSome)

/-- Structural presence of a key, irrespective of decodability. -/
def hasKey {β : Type} (m : Memory β) (db key : String) : Bool :=
  (m.get_raw db key).isSome

end Memory

/-! ## Services and the router (bullg-core/src/models/services.rs)

The matchit radix tries are modelled as lists of (pattern, value) entries
in insertion order; an insertion whose pattern is already registered fails
exactly like a matchit conflict (all patterns inserted by this code are of
the shape prefix ++ "/" ++ wildcard, for which matchit conflicts are
precisely duplicate patterns).  Rust HashMap / HashSet iteration is
modelled as insertion order. -/

namespace Models

/-- Embeds enum Protocols. -/
inductive Protocols where
  | http | https | tcp | udp | grpc | grpcs | ws | wss
  deriving Repr, DecidableEq

/-- Embeds struct ServiceVersion. -/
structure ServiceVersion where
  id : String
  name : String
  enabled : Bool
  description : String
  deprecated : Bool

/-- Embeds struct Upstream. -/
structure Upstream where
  id : String
  name : String
  description : String
  tags : List String
  protocols : List Protocols
  host : String
  port : Nat
  enabled : Bool
  versions : List String

/-- Embeds struct ContextPath. -/
structure ContextPath where
  path : String
  versions : List String

/-- Embeds struct ServiceContextPaths. -/
structure ServiceContextPaths where
  enable : Bool
  paths : List ContextPath

/-- Embeds struct AppliedPlugin (the services model; the gateway crate has
its own simpler AppliedPlugin, embedded separately below). -/
structure AppliedPlugin where
  id : String
  name : String
  description : Option String
  type : String
  tags : List String
  phase : Option String
  enabled : Bool
  version : Option String
  versions : Option (List String)
  config : Option Val
  order : Option Nat
  priority : Option Nat

/-- Embeds struct AppliedPolicy. -/
structure AppliedPolicy where
  id : String
  name : String
  description : Option String
  type : String
  tags : List String
  enabled : Bool
  version : Option (List String)
  config : Option Val

/-- Embeds struct ServiceConsumer. -/
structure ServiceConsumer where
  id : String
  enabled : Bool
  versions : List String

/-- Embeds struct RouteConfig. -/
structure RouteConfig where
  protocols : List Protocols
  path : String
  backend : String
  methods : List String

/-- Embeds struct Route. -/
structure Route where
  id : String
  name : String
  description : String
  tags : List String
  enabled : Bool
  versions : List String
  config : RouteConfig
  plugins : List AppliedPlugin

/-- Embeds struct ServiceSpec. -/
structure ServiceSpec where
  enabled : Bool
  route : String
  versions : List String

/-- Embeds struct BullGRoute: the per-service route sub-trie. -/
structure BullGRoute where
  routes : List (String × Route)

/-- Embeds struct Service. -/
structure Service where
  id : String
  name : String
  description : String
  tags : List String
  protocols : List Protocols
  spec : Option ServiceSpec
  versions : List ServiceVersion
  upstreams : List Upstream
  context_paths : ServiceContextPaths
  plugins : List AppliedPlugin
  policies : List AppliedPolicy
  consumers : List ServiceConsumer
  routes : List Route
  router : BullGRoute

/-- Embeds struct ServiceMapper. -/
structure ServiceMapper where
  key : String
  value : Service

/-- Embeds struct GlobalApplied. -/
structure GlobalApplied where
  plugins : List AppliedPlugin
  policies : List AppliedPolicy

/-- Embeds struct ServicesTemplate. -/
structure ServicesTemplate where
  gateway : String
  version : String
  release_channel : String
  bullg_versions : List String
  developer : String
  global : GlobalApplied
  services : List Service

/-- Embeds the loop body of BullGRoute::add_route driven by
Service::build_router: enabled routes are inserted keyed on
route.config.path; a conflicting insert makes build_router abort with its
error, leaving the partially built sub-trie in place (callers discard the
Result). -/
def addRouteList : List (String × Route) → List Route → List (String × Route)
  | acc, [] => acc
  | acc, r :: rs =>
    if r.enabled then
      if (alookup acc r.config.path).isSome then acc
      else addRouteList (acc ++ [(r.config.path, r)]) rs
    else addRouteList acc rs

/-- Embeds Service::build_router: reset the sub-trie and insert the
enabled routes. -/
def Service.build_router (s : Service) : Service :=
  { s with router := ⟨addRouteList [] s.routes⟩ }

/-- Embeds the HashMap entry().or_default().push(v) idiom on maps from a
key to a list: extend the existing entry in place, or append a new
entry. -/
def pushEntry : List (String × List String) → String → String →
    List (String × List String)
  | [], k, v => [(k, [v])]
  | kv :: rest, k, v =>
    if kv.1 == k then (kv.1, kv.2 ++ [v]) :: rest
    else kv :: pushEntry rest k v

/-- Embeds str::trim_end_matches applied with the slash pattern: drop
every trailing slash. -/
def trimTrailingSlashes (s : String) : String :=
  ⟨(s.data.reverse.dropWhile (· == '/')).reverse⟩

/-- The ids of the versions listed on the service (all_versions in
Service::get_service_maps). -/
def allVersions (s : Service) : List String :=
  s.versions.map (·.id)

/-- Embeds the path_to_versions stage of Service::get_service_maps: each
context path with an empty version set covers all versions, otherwise the
intersection of its set with the listed versions; without enabled context
paths the default base path /name/ covers all versions. -/
def pathToVersions (s : Service) : List (String × List String) :=
  if s.context_paths.enable && !s.context_paths.paths.isEmpty then
    s.context_paths.paths.foldl (fun acc cp =>
      if cp.versions.isEmpty then
        (allVersions s).foldl (fun a v => pushEntry a cp.path v) acc
      else
        cp.versions.foldl (fun a v =>
          if (allVersions s).contains v then pushEntry a cp.path v else a) acc) []
  else
    (allVersions s).foldl (fun a v => pushEntry a ("/" ++ s.name ++ "/") v) []

/-- Embeds the per_version_paths stage of Service::get_service_maps: a
base path covering more than one version contributes
base-without-trailing-slashes ++ "/" ++ version ++ "/" to every covered
version, a base path covering exactly one version is used verbatim.  An
entry with an empty cover cannot occur (pushEntry always stores a
non-empty list; the Rust indexation would panic on it) and is a no-op
here. -/
def pvpStep (acc : List (String × List String)) (bc : String × List String) :
    List (String × List String) :=
  if bc.2.length > 1 then
    bc.2.foldl (fun a v =>
      pushEntry a v (trimTrailingSlashes bc.1 ++ "/" ++ v ++ "/")) acc
  else
    match bc.2 with
    | [v] => pushEntry acc v bc.1
    | _ => acc

def perVersionPaths (s : Service) : List (String × List String) :=
  let init := (allVersions s).map (fun v => (v, ([] : List String)))
  (pathToVersions s).foldl pvpStep init

/-- Version-set match used for upstreams, consumers and routes: an empty
set matches every version. -/
def hasV (v : String) (versions : List String) : Bool :=
  versions.isEmpty || versions.contains v

/-- Version-set match for applied plugins (absent or empty means all). -/
def pluginMatches (v : String) (p : AppliedPlugin) : Bool :=
  match p.versions with
  | none => true
  | some vs => vs.isEmpty || vs.contains v

/-- Version-set match for applied policies. -/
def policyMatches (v : String) (p : AppliedPolicy) : Bool :=
  match p.version with
  | none => true
  | some vs => vs.isEmpty || vs.contains v

/-- Embeds the per-version projection of Service::get_service_maps: keep
only the upstreams, plugins, policies, consumers, routes (with per-route
plugins filtered the same way), spec versions and version entries matching
the version, re-point the context paths at the chosen path, and compile
the route sub-trie. -/
def projectVersion (s : Service) (v : String) (chosen : String) : Service :=
  let svc : Service :=
    { s with
      spec := s.spec.map (fun sp => { sp with versions := sp.versions.filter (· == v) })
      versions := s.versions.filter (fun sv => sv.id == v)
      upstreams := s.upstreams.filter (fun u => hasV v u.versions)
      plugins := s.plugins.filter (pluginMatches v)
      policies := s.policies.filter (policyMatches v)
      consumers := s.consumers.filter (fun cNs => hasV v cNs.versions)
      routes := (s.routes.filter (fun r => hasV v r.versions)).map
        (fun r => { r with plugins := r.plugins.filter (pluginMatches v) })
      context_paths :=
        { enable := true
          paths := [{ path := chosen, versions := [v] }] } }
  svc.build_router

/-- Embeds Service::get_service_maps.  Zero listed versions produce a
single mapper keyed on the first context path (or /name/); otherwise every
version with a non-empty computed path list yields a mapper keyed on its
first path, skipping keys already produced. -/
def getServiceMaps (s : Service) : List ServiceMapper :=
  let avs := allVersions s
  if avs.isEmpty then
    let key :=
      if s.context_paths.enable && !s.context_paths.paths.isEmpty then
        (s.context_paths.paths.headD { path := "", versions := [] }).path
      else "/" ++ s.name ++ "/"
    [{ key := key, value := s.build_router }]
  else
    let pvp := perVersionPaths s
    (avs.foldl (fun (st : List String × List ServiceMapper) v =>
      match (alookup pvp v).getD [] with
      | [] => st
      | chosen :: _ =>
        if st.1.contains chosen then st
        else (st.1 ++ [chosen],
              st.2 ++ [{ key := chosen, value := projectVersion s v chosen }]))
      ([], [])).2

/-- Embeds ServicesTemplate::get_services_map_vec (sequential branch; the
parallel branch performs the same last-wins key deduplication).  The
HashMap is modelled as an association list in first-insertion key
order. -/
def getServicesMapVec (t : ServicesTemplate) : List ServiceMapper :=
  let deduped : List (String × Service) :=
    t.services.foldl (fun acc svc =>
      (getServiceMaps svc).foldl (fun a m => ainsert a m.key m.value) acc) []
  deduped.map (fun kv => { key := kv.1, value := kv.2 })

/-- Embeds struct BullGRouter: the service trie plus the fallback list. -/
structure BullGRouter where
  services : List (String × Service)
  default_services : List Service

/-- Embeds BullGRouter::new. -/
def BullGRouter.new : BullGRouter := ⟨[], []⟩

/-- Service-trie insertion (matchit Router::insert): fails on a conflict,
i.e. a pattern already registered; the caller discards the Result, so a
conflicting insert leaves the old entry in place. -/
def trieInsert (l : List (String × Service)) (k : String) (v : Service) :
    List (String × Service) :=
  if (alookup l k).isSome then l else l ++ [(k, v)]

/-- Key normalization of BullGRouter::add_service_mapper: strip trailing
slashes, prepend a slash if missing, append the wildcard suffix. -/
def normalizeKey (k : String) : String :=
  let p := trimTrailingSlashes k
  let p := if strStartsWith p "/" then p else "/" ++ p
  p ++ "/" ++ "{*routes}"

/-- Embeds BullGRouter::add_service_mapper: mappers of services with
enabled context paths go into the trie under the normalized key, the
others are appended to the fallback list. -/
def BullGRouter.add_service_mapper (r : BullGRouter)
    (maps : List ServiceMapper) : BullGRouter :=
  maps.foldl (fun r m =>
    if m.value.context_paths.enable then
      { r with services := trieInsert r.services (normalizeKey m.key) m.value }
    else
      { r with default_services := r.default_services ++ [m.value] }) r

/-- Router component of BullG::new: a fresh router filled from the
snapshot's service mappers. -/
def routerOfSnapshot (t : ServicesTemplate) : BullGRouter :=
  BullGRouter.new.add_service_mapper (getServicesMapVec t)

/-- Router component of BullG::update_config: the new snapshot's service
mappers are added to the router currently held under the write lock. -/
def updateConfigRouter (router : BullGRouter) (t : ServicesTemplate) :
    BullGRouter :=
  router.add_service_mapper (getServicesMapVec t)

end Models

/-! ## Request pipeline and plugin chain (bullg-gateway/src/lib.rs,
bullg-plugin-api/src/lib.rs, bullg-plugins/src/lib.rs)

The per-request context is the lock-free projection of BullGContext: the
short-lived read-write locks serialize every access, so within one request
the context behaves as a value threaded through the chain.  Plugin
application returns the optional error of Plugin::apply together with the
context after its mutations (a failing apply keeps the mutations it made
before failing, as in the source).  External side effects of plugins
(spawned HTTP log posts, console output) leave the context untouched and
are not modelled.  HeaderMap lookup and insertion are case-insensitive, as
in the http crate. -/

namespace Gw

/-- Embeds enum Phase of the plugin API. -/
inductive Phase where
  | pre | post | intermediate
  deriving Repr, DecidableEq

/-- Embeds struct AppliedPlugin of the gateway core crate (name, phase
tag, inline config).  The phase field is carried verbatim; the chain
executor never consults it. -/
structure AppliedPlugin where
  name : String
  phase : String
  config : Val

/-- Embeds struct Route of the gateway core crate. -/
structure Route where
  id : String
  path : String
  methods : List String

/-- Embeds struct Service of the gateway core crate. -/
structure Service where
  id : String
  name : String
  url : String
  routes : List Route

/-- Embeds struct GatewayState (services plus global plugins). -/
structure GatewayState where
  services : List Service
  global_plugins : List AppliedPlugin

/-- Case-insensitive header lookup (HeaderMap::get via
BullGContext::header_get). -/
def headerGet (headers : List (String × String)) (k : String) :
    Option String :=
  (headers.find? (fun kv => strToLower kv.1 == strToLower k)).map (·.2)

/-- Case-insensitive header insertion (HeaderMap::insert): replace the
existing entry or append. -/
def headerPut (headers : List (String × String)) (k v : String) :
    List (String × String) :=
  match headers with
  | [] => [(k, v)]
  | kv :: rest =>
    if strToLower kv.1 == strToLower k then (k, v) :: rest
    else kv :: headerPut rest k v

/-- Embeds struct BullGContext restricted to the request-visible state:
method, URI path and query, headers, body and the response-status cell.
The variables bag and the tools handle are unused by the verified
claims. -/
structure BullGContext where
  method : String
  uriPath : String
  uriQuery : Option String
  headers : List (String × String)
  body : String
  status : Option Nat

/-- Embeds BullGContext::new: fresh context with an unset status cell. -/
def BullGContext.new (method uriPath : String) (uriQuery : Option String)
    (headers : List (String × String)) (body : String) : BullGContext :=
  { method := method, uriPath := uriPath, uriQuery := uriQuery,
    headers := headers, body := body, status := none }

/-- External functions linked by the plugin crate: base64 standard-alphabet
decoding and UTF-8 decoding of a byte buffer. -/
structure ExternLib where
  b64decode : String → Option (List Nat)
  fromUtf8 : List Nat → Option String

/-- A registered plugin implementation (trait Plugin): stable name,
declared default phase, and apply.  Apply yields the optional error
message of the Result and the context after the mutations apply
performed. -/
structure PluginImpl where
  name : String
  phase : Phase
  apply : BullGContext → Val → Option String × BullGContext

/-- Embeds Cors::apply. -/
def corsApply (ctx : BullGContext) (cfg : Val) :
    Option String × BullGContext :=
  let allow_origin := ((cfg.get "allow_origin").bind Val.asStr).getD "*"
  (none, { ctx with
    headers := headerPut ctx.headers "access-control-allow-origin" allow_origin })

/-- Embeds RequestTermination::apply.  The configured status is a u64
narrowed with an as-u16 cast, hence the reduction modulo 65536
(StatusCode::from_u16 validity is not modelled; the claims never exercise
an out-of-range status). -/
def requestTerminationApply (ctx : BullGContext) (cfg : Val) :
    Option String × BullGContext :=
  if ((cfg.get "enabled").bind Val.asBool).getD false then
    let status := ((cfg.get "status").bind Val.asU64).getD 403
    let body := ((cfg.get "body").bind Val.asStr).getD "Request terminated"
    (none, { ctx with status := some (status % 65536), body := body })
  else
    (none, ctx)

/-- Embeds HttpLog::apply: fires an asynchronous POST and console output;
the context is untouched and the result is success. -/
def httpLogApply (ctx : BullGContext) (_cfg : Val) :
    Option String × BullGContext :=
  (none, ctx)

/-- Split at the first colon (the splitn(2) of BasicAuth::apply). -/
def splitColon : List Char → Option (List Char × List Char)
  | [] => none
  | ch :: rest =>
    if ch == ':' then some ([], rest)
    else (splitColon rest).map (fun p => (ch :: p.1, p.2))

/-- Splitn-by-colon used by BasicAuth::apply: the part before the first
colon and the rest (empty when there is no colon). -/
def splitCredentials (s : String) : String × String :=
  match splitColon s.data with
  | none => (s, "")
  | some p => (⟨p.1⟩, ⟨p.2⟩)

/-- Embeds BasicAuth::apply: with an empty (or missing, or non-string)
configured user the plugin succeeds immediately; otherwise the
Authorization header is base64-decoded and compared, and a mismatch sets
status 401 with the configured message body. -/
def basicAuthApply (lib : ExternLib) (ctx : BullGContext) (cfg : Val) :
    Option String × BullGContext :=
  let expected_user := ((cfg.get "user").bind Val.asStr).getD ""
  let expected_pass := ((cfg.get "pass").bind Val.asStr).getD ""
  if expected_user == "" then
    (none, ctx)
  else
    let ok :=
      match headerGet ctx.headers "authorization" with
      | none => false
      | some auth =>
        if strStartsWith auth "Basic " then
          let b64 := strDrop auth "Basic ".length
          match lib.b64decode b64 with
          | none => false
          | some bytes =>
            match lib.fromUtf8 bytes with
            | none => false
            | some s =>
              let up := splitCredentials s
              up.1 == expected_user && up.2 == expected_pass
        else false
    if ok then (none, ctx)
    else
      (none, { ctx with
        status := some 401
        body := ((cfg.get "message").bind Val.asStr).getD
          "Unauthorized request: Failed" })

/-- Embeds SecurityHeadersPlugin::apply. -/
def securityHeadersApply (ctx : BullGContext) (_cfg : Val) :
    Option String × BullGContext :=
  let h := headerPut ctx.headers "x-content-type-options" "nosniff"
  let h := headerPut h "x-frame-options" "DENY"
  let h := headerPut h "strict-transport-security"
    "max-age=63072000; includeSubDomains; preload"
  (none, { ctx with headers := h })

/-- Embeds bullg_plugins::builtin(): the fixed plugin registry. -/
def builtin (lib : ExternLib) : List PluginImpl :=
  [ { name := "cors", phase := .pre, apply := corsApply },
    { name := "request_termination", phase := .pre,
      apply := requestTerminationApply },
    { name := "http_log", phase := .post, apply := httpLogApply },
    { name := "basic_auth", phase := .pre, apply := basicAuthApply lib },
    { name := "security_headers", phase := .post,
      apply := securityHeadersApply } ]

/-- Embeds Gateway::run_plugins, instrumented with the invocation trace
(the applied entries whose implementation was looked up and invoked, in
order) and the entries left unexamined when the pre-phase chain breaks.
Per entry: look up the first registered implementation whose name matches
the entry and whose declared phase matches the executing phase; invoke it
(an error is logged and the chain continues); after a pre-phase invocation
a set status cell breaks the chain. -/
def runPlugins (plugins : List PluginImpl) (phase : Phase)
    (ctx : BullGContext) :
    List AppliedPlugin → BullGContext × List String × List AppliedPlugin
  | [] => (ctx, [], [])
  | ap :: rest =>
    match plugins.find? (fun p => p.name == ap.name && p.phase == phase) with
    | none => runPlugins plugins phase ctx rest
    | some p =>
      let r := p.apply ctx ap.config
      if r.2.status.isSome && phase == Phase.pre then
        (r.2, [ap.name], rest)
      else
        let rec2 := runPlugins plugins phase r.2 rest
        (rec2.1, ap.name :: rec2.2.1, rec2.2.2)

/-- A response value: status, headers, body. -/
structure Response where
  status : Nat
  headers : List (String × String)
  body : String

/-- Embeds fn simple(status, body). -/
def simple (status : Nat) (body : String) : Response :=
  { status := status, headers := [], body := body }

/-- Embeds struct Gateway restricted to the request-relevant state, plus
the compile-time identity constants APP_NAME / APP_VERSION. -/
structure Gateway where
  state : List Service
  global_plugins : List AppliedPlugin
  plugins : List PluginImpl
  appName : String
  appVersion : String

/-- Embeds Gateway::match_route: first service (in state order) owning a
route whose path is a prefix of the request path. -/
def matchRoute (state : List Service) (path : String) :
    Option (Service × Route) :=
  state.findSome? (fun svc =>
    (svc.routes.find? (fun r => strStartsWith path r.path)).map
      (fun r => (svc, r)))

/-- Embeds Gateway::default_headers.  The latency values and the request
id are runtime inputs (clock readings and a fresh UUID) passed in as
parameters. -/
def defaultHeaders (gw : Gateway) (requestId : String)
    (latencyUs latencyMs : Nat) (resp : Response) : Response :=
  let h := headerPut resp.headers "Via" gw.appName
  let h :=
    if (headerGet h "Content-Type").isSome then h
    else if (headerGet h "Accept").isSome then h
    else headerPut h "Content-Type" "text/html"
  let h := headerPut h "Server" (gw.appName ++ "/" ++ gw.appVersion)
  let h := headerPut h "X-Powered-By"
    (gw.appName ++ "-" ++ gw.appVersion ++ "/VIKSHRO")
  let h := headerPut h "X-Server" (gw.appName ++ "/" ++ gw.appVersion)
  let h := headerPut h "X-Gateway"
    (gw.appName ++ " Gateway/" ++ gw.appVersion)
  let h := headerPut h "X-Latency-Us" (toString latencyUs)
  let h := headerPut h "X-Latency" (toString latencyMs)
  let h := headerPut h "X-Request-Id" requestId
  { resp with headers := h }

/-- Embeds Gateway::default_headers_from_ctx: status and body from the
context (status defaulting to 200), context headers applied, then the
identity headers. -/
def defaultHeadersFromCtx (gw : Gateway) (ctx : BullGContext)
    (requestId : String) (latencyUs latencyMs : Nat) : Response :=
  let base : Response :=
    { status := ctx.status.getD 200, headers := [], body := ctx.body }
  let withCtx := ctx.headers.foldl
    (fun r kv => { r with headers := headerPut r.headers kv.1 kv.2 }) base
  defaultHeaders gw requestId latencyUs latencyMs withCtx

/-- Parsed upstream URL (url::Url after parsing the upstream string):
scheme and authority, host component, path, query. -/
structure Url where
  schemeHost : String
  host : String
  path : String
  query : Option String

/-- An upstream HTTP exchange: request out, optional response in (None is
a network or upstream failure, the 502 case). -/
structure UpstreamReq where
  method : String
  url : Url
  headers : List (String × String)
  body : String

/-- Upstream response as observed through reqwest. -/
structure UpstreamResp where
  status : Nat
  headers : List (String × String)
  body : String

/-- An incoming request as decomposed by Gateway::handle. -/
structure Request where
  method : String
  path : String
  query : Option String
  headers : List (String × String)
  body : String

/-- Rendering of the original URI used for the referer header. -/
def uriToString (path : String) (query : Option String) : String :=
  match query with
  | none => path
  | some q => path ++ "?" ++ q

/-- Embeds the 404 HTML body (request id, app name, app version, current
year). -/
def notFoundHtml (gw : Gateway) (requestId : String) (year : Int) : String :=
  "<html><head><title>BullG: Route Not Found</title></head>" ++
  "<body><h1>Not Found</h1><h2>Route not found</h2>" ++
  "<p><b>Request id:</b> " ++ requestId ++ "</p><br/><hr/> " ++
  "<center><p>" ++ gw.appName ++ " Gateway " ++ gw.appVersion ++
  " &copy; " ++ toString year ++ "</p></center></body></html>"

/-- Embeds Gateway::handle.  Runtime inputs that the source draws from the
environment are parameters: the fresh request id, the clock readings, the
current year, the URL parser (url::Url::parse on the upstream base, whose
unwrap never fires for well-formed service URLs) and the upstream HTTP
exchange.  The boolean of the result records whether the upstream was
contacted. -/
def handle (gw : Gateway) (parseUrl : String → Url)
    (send : UpstreamReq → Option UpstreamResp) (requestId : String)
    (latencyUs latencyMs : Nat) (year : Int) (req : Request) :
    Response × Bool :=
  let ctx0 := BullGContext.new req.method req.path req.query req.headers req.body
  let pre := runPlugins gw.plugins Phase.pre ctx0 gw.global_plugins
  let ctx1 := pre.1
  match ctx1.status with
  | some code =>
    (defaultHeaders gw requestId latencyUs latencyMs (simple code ctx1.body),
     false)
  | none =>
    match matchRoute gw.state req.path with
    | none =>
      (defaultHeaders gw requestId latencyUs latencyMs
        (simple 404 (notFoundHtml gw requestId year)), false)
    | some sr =>
      let url0 := parseUrl (sr.1.url ++ sr.2.path)
      let url : Url := { url0 with path := req.path, query := req.query }
      let upstream_host := url.host
      let h1 :=
        match headerGet ctx1.headers "host" with
        | some orig => headerPut ctx1.headers "x-forwarded-host" orig
        | none => ctx1.headers
      let h2 := headerPut h1 "host" upstream_host
      let h3 := headerPut h2 "via" gw.appName
      let h4 := headerPut h3 "referer" (uriToString req.path req.query)
      let ctx2 := { ctx1 with headers := h4 }
      match send { method := req.method, url := url, headers := ctx2.headers,
                   body := ctx2.body } with
      | none =>
        (defaultHeaders gw requestId latencyUs latencyMs
          (simple 502 "upstream error"), true)
      | some resp =>
        let ctx3 := { ctx2 with headers := resp.headers, body := resp.body,
                                status := some resp.status }
        let post := runPlugins gw.plugins Phase.post ctx3 gw.global_plugins
        (defaultHeadersFromCtx gw post.1 requestId latencyUs latencyMs, true)

end Gw

/-! ## Control-plane streaming loop (bullg-control-sync/src/lib.rs)

SyncClient::try_ws reads frames from the established websocket until the
stream ends; every binary frame is base64-decoded (bullg_utils'
custom_decrypt) and deserialized (serde_json) into a GatewayState handed
to the callback.  The stream is modelled as the list of messages the
socket yields (read errors included); base64 and serde_json are the
abstract decoding parameters.  The function returns the states delivered
to the callback, in order, together with the Result try_ws finished
with. -/

namespace Sync

/-- A websocket frame: binary payload or any non-binary message. -/
inductive Frame where
  | binary (data : List Nat) : Frame
  | other : Frame

/-- Read-loop outcome kinds of try_ws. -/
inductive SyncErr where
  | ws : SyncErr
  | decodeB64 : SyncErr
  | deserialize : SyncErr
  deriving Repr, DecidableEq

/-- Embeds the read loop of SyncClient::try_ws.  A read error, a base64
failure or a deserialization failure propagates out of the loop; a
non-binary frame is skipped; a fully decoded state is handed to the
callback and the loop continues. -/
def tryWs {σ : Type} (b64 : List Nat → Option (List Nat))
    (parse : List Nat → Option σ) :
    List (Except Unit Frame) → List σ × Except SyncErr Unit
  | [] => ([], .ok ())
  | .error _ :: _ => ([], .error .ws)
  | .ok .other :: rest => tryWs b64 parse rest
  | .ok (.binary d) :: rest =>
    match b64 d with
    | none => ([], .error .decodeB64)
    | some bytes =>
      match parse bytes with
      | none => ([], .error .deserialize)
      | some st =>
        let r := tryWs b64 parse rest
        (st :: r.1, r.2)

end Sync

/-! ## Concrete instances

Closed configuration fragments used by the concrete theorems below. -/

namespace Examples

/-- Single service with one enabled context path /a and no versions. -/
def svcA : Models.Service :=
  { id := "a", name := "a", description := "", tags := [], protocols := [],
    spec := none, versions := [], upstreams := [],
    context_paths := { enable := true, paths := [{ path := "/a", versions := [] }] },
    plugins := [], policies := [], consumers := [], routes := [],
    router := ⟨[]⟩ }

/-- Snapshot A: the one service svcA. -/
def tmplA : Models.ServicesTemplate :=
  { gateway := "g", version := "1.0", release_channel := "stable",
    bullg_versions := [], developer := "", global := ⟨[], []⟩,
    services := [svcA] }

/-- Snapshot B: no services at all. -/
def tmplB : Models.ServicesTemplate := { tmplA with services := [] }

/-- Two-version service of the versioned-projection scenario: versions v1
and v2, one context path /api covering both. -/
def svcApi : Models.Service :=
  { id := "api", name := "api", description := "", tags := [],
    protocols := [], spec := none,
    versions :=
      [ { id := "v1", name := "v1", enabled := true, description := "",
          deprecated := false },
        { id := "v2", name := "v2", enabled := true, description := "",
          deprecated := false } ],
    upstreams := [],
    context_paths := { enable := true,
                       paths := [{ path := "/api", versions := [] }] },
    plugins := [], policies := [], consumers := [], routes := [],
    router := ⟨[]⟩ }

/-- One-version service whose single context path covers exactly that
version. -/
def svcOne : Models.Service :=
  { id := "one", name := "one", description := "", tags := [],
    protocols := [], spec := none,
    versions :=
      [ { id := "v1", name := "v1", enabled := true, description := "",
          deprecated := false } ],
    upstreams := [],
    context_paths := { enable := true,
                       paths := [{ path := "/one", versions := [] }] },
    plugins := [], policies := [], consumers := [], routes := [],
    router := ⟨[]⟩ }

/-- External library instance for concrete runs (never consulted on the
verified paths). -/
def lib0 : Gw.ExternLib :=
  { b64decode := fun _ => none, fromUtf8 := fun _ => none }

/-- Applied request_termination entry of the short-circuit scenario. -/
def termEntry : Gw.AppliedPlugin :=
  { name := "request_termination", phase := "pre",
    config := Val.obj
      [("enabled", Val.bool true), ("status", Val.int 418),
       ("body", Val.str "nope")] }

/-- Gateway with the builtin registry and one global termination entry. -/
def gw0 : Gw.Gateway :=
  { state := [], global_plugins := [termEntry], plugins := Gw.builtin lib0,
    appName := "BullG", appVersion := "0.1.0" }

/-- Degenerate URL parser for concrete runs. -/
def parseUrl0 : String → Gw.Url :=
  fun s => { schemeHost := s, host := "up", path := "", query := none }

/-- Upstream that always fails (never reached in the verified runs). -/
def send0 : Gw.UpstreamReq → Option Gw.UpstreamResp := fun _ => none

/-- Request of the short-circuit scenario. -/
def req0 : Gw.Request :=
  { method := "GET", path := "/anything", query := none, headers := [],
    body := "" }

/-- Fully decoded state delivered by the good frame in the streaming
counterexample. -/
def gsGood : Gw.GatewayState := { services := [], global_plugins := [] }

/-- Base64 decoder of the streaming counterexample: only the good frame
decodes. -/
def b64c : List Nat → Option (List Nat) :=
  fun d => if d == [1] then some [2] else none

/-- Deserializer of the streaming counterexample. -/
def parsec : List Nat → Option Gw.GatewayState :=
  fun b => if b == [2] then some gsGood else none

end Examples

/-! ## Association-list lemmas -/

theorem alookup_ainsert_self {α : Type} (l : List (String × α)) (k : String)
    (v : α) : alookup (ainsert l k v) k = some v := by
  induction l with
  | nil => simp [ainsert, alookup]
  | cons kv rest ih =>
    cases h : (kv.1 == k) with
    | true => simp [ainsert, h, alookup]
    | false => simp [ainsert, h, alookup, ih]

theorem alookup_aerase_self {α : Type} (l : List (String × α)) (k : String) :
    alookup (aerase l k) k = none := by
  induction l with
  | nil => simp [aerase, alookup]
  | cons kv rest ih =>
    cases h : (kv.1 == k) with
    | true => simpa [aerase, List.filter, h] using ih
    | false => simpa [aerase, List.filter, h, alookup] using ih

theorem alookup_exists_mem {α : Type} {l : List (String × α)} {k : String}
    {v : α} (h : alookup l k = some v) : ∃ p ∈ l, p.2 = v := by
  induction l with
  | nil => simp [alookup] at h
  | cons kv rest ih =>
    cases hk : (kv.1 == k) with
    | true =>
      simp [alookup, hk] at h
      exact ⟨kv, List.mem_cons_self kv rest, h⟩
    | false =>
      simp [alookup, hk] at h
      obtain ⟨p, hp, hv⟩ := ih h
      exact ⟨p, List.mem_cons_of_mem kv hp, hv⟩

theorem all_ainsert {α : Type} (q : String × α → Bool)
    (l : List (String × α)) (k : String) (v : α) (hl : l.all q = true)
    (hv : q (k, v) = true) : (ainsert l k v).all q = true := by
  induction l with
  | nil => simp [ainsert, hv]
  | cons kv rest ih =>
    simp only [List.all_cons, Bool.and_eq_true] at hl
    cases h : (kv.1 == k) with
    | true => simp [ainsert, h, hv, hl.2]
    | false => simp [ainsert, h, hl.1, ih hl.2]

theorem all_aerase {α : Type} (q : String × α → Bool)
    (l : List (String × α)) (k : String) (hl : l.all q = true) :
    (aerase l k).all q = true := by
  induction l with
  | nil => simp [aerase]
  | cons kv rest ih =>
    simp only [List.all_cons, Bool.and_eq_true] at hl
    cases h : (kv.1 == k) with
    | true => simpa [aerase, List.filter, h] using ih hl.2
    | false =>
      have he : aerase (kv :: rest) k = kv :: aerase rest k := by
        simp [aerase, List.filter, h]
      rw [he]
      simp [hl.1, ih hl.2]

/-! ## Key/value store lemmas -/

theorem get_raw_put_self {β : Type} (c : Codec β) (m : Memory β)
    (db key : String) (v : Val) :
    (Memory.put c m db key v).get_raw db key = some (c.enc v) := by
  obtain ⟨kind⟩ := m
  cases kind with
  | lmdb dbs => simp [Memory.put, Memory.get_raw, alookup_ainsert_self]
  | mem map => simp [Memory.put, Memory.get_raw, alookup_ainsert_self]

theorem get_raw_delete_self {β : Type} (m : Memory β) (db key : String) :
    (Memory.delete m db key).get_raw db key = none := by
  obtain ⟨kind⟩ := m
  cases kind with
  | lmdb dbs =>
    simp [Memory.delete, Memory.get_raw, alookup_ainsert_self,
      alookup_aerase_self]
  | mem map => simp [Memory.delete, Memory.get_raw, alookup_aerase_self]

theorem hasKey_put_self {β : Type} (c : Codec β) (m : Memory β)
    (db key : String) (v : Val) :
    (Memory.put c m db key v).hasKey db key = true := by
  simp [Memory.hasKey, get_raw_put_self]

theorem wf_dec_of_get_raw {β : Type} {c : Codec β} {m : Memory β}
    {db key : String} {b : β} (hw : Memory.wf c m = true)
    (h : m.get_raw db key = some b) : (c.dec b).isSome = true := by
  obtain ⟨kind⟩ := m
  cases kind with
  | lmdb dbs =>
    simp only [Memory.get_raw] at h
    cases hd : alookup dbs db with
    | none => rw [hd] at h; simp [alookup] at h
    | some sub =>
      rw [hd] at h
      simp only [Option.getD_some] at h
      obtain ⟨p, hp, hv⟩ := alookup_exists_mem h
      obtain ⟨d, hdm, hds⟩ := alookup_exists_mem hd
      simp only [Memory.wf, List.all_eq_true] at hw
      have := hw d hdm p (hds ▸ hp)
      simpa [hv] using this
  | mem map =>
    simp only [Memory.get_raw] at h
    obtain ⟨p, hp, hv⟩ := alookup_exists_mem h
    simp only [Memory.wf, List.all_eq_true] at hw
    simpa [hv] using hw p hp

theorem existsKey_eq_hasKey {β : Type} {c : Codec β} {m : Memory β}
    (hw : Memory.wf c m = true) (db key : String) :
    Memory.existsKey c m db key = .ok (m.hasKey db key) := by
  unfold Memory.existsKey Memory.get Memory.hasKey
  cases hr : m.get_raw db key with
  | none => simp [Except.map]
  | some b =>
    obtain ⟨v, hv⟩ := Option.isSome_iff_exists.mp (wf_dec_of_get_raw hw hr)
    simp [hv, Except.map]

theorem wf_put {β : Type} {c : Codec β} {m : Memory β} (hc : c.Faithful)
    (hw : Memory.wf c m = true) (db key : String) (v : Val) :
    Memory.wf c (Memory.put c m db key v) = true := by
  have hq : (fun kv : String × β => (c.dec kv.2).isSome) (key, c.enc v) = true := by
    simp [hc v]
  obtain ⟨kind⟩ := m
  cases kind with
  | lmdb dbs =>
    simp only [Memory.wf, Memory.put] at hw ⊢
    apply all_ainsert _ _ _ _ hw
    apply all_ainsert _ _ _ _ _ hq
    cases hd : alookup dbs db with
    | none => simp
    | some sub =>
      obtain ⟨d, hdm, hds⟩ := alookup_exists_mem hd
      simpa [hds] using (List.all_eq_true.mp hw) d hdm
  | mem map =>
    simp only [Memory.wf, Memory.put] at hw ⊢
    exact all_ainsert _ _ _ _ hw hq

theorem wf_delete {β : Type} {c : Codec β} {m : Memory β}
    (hw : Memory.wf c m = true) (db key : String) :
    Memory.wf c (Memory.delete m db key) = true := by
  obtain ⟨kind⟩ := m
  cases kind with
  | lmdb dbs =>
    simp only [Memory.wf, Memory.delete] at hw ⊢
    apply all_ainsert _ _ _ _ hw
    apply all_aerase
    cases hd : alookup dbs db with
    | none => simp
    | some sub =>
      obtain ⟨d, hdm, hds⟩ := alookup_exists_mem hd
      simpa [hds] using (List.all_eq_true.mp hw) d hdm
  | mem map =>
    simp only [Memory.wf, Memory.delete] at hw ⊢
    exact all_aerase _ _ _ hw

theorem get_put_self {β : Type} {c : Codec β} (hc : c.Faithful)
    (m : Memory β) (db key : String) (v : Val) :
    Memory.get c (Memory.put c m db key v) db key = .ok (some v) := by
  simp [Memory.get, get_raw_put_self, hc v]

/-! ## Claim C3 -/

/-- C3: KV round trip: for every (db, key, v) with v serializable (the
codec round-trips it), put followed by get returns exactly the stored
value, on every store of either backend (the persistent LMDB backend and
the in-process map are the two constructors of MemoryKind, both covered by
the quantification over the store). -/
theorem C3_kv_put_get_roundtrip {β : Type} (c : Codec β) (hc : c.Faithful)
    (m : Memory β) (db key : String) (v : Val) :
    Memory.get c (Memory.put c m db key v) db key = .ok (some v) :=
  get_put_self hc m db key v

theorem C3_kv_put_get_roundtrip_witness :
    Memory.get idCodec
        (Memory.put idCodec (Memory.memory) "db" "k" (Val.int 7)) "db" "k"
      = .ok (some (Val.int 7))
  ∧ Memory.get idCodec
        (Memory.put idCodec (Memory.open_lmdb) "db" "k" (Val.int 7)) "db" "k"
      = .ok (some (Val.int 7)) :=
  ⟨C3_kv_put_get_roundtrip idCodec idCodec_faithful Memory.memory "db" "k"
      (Val.int 7),
   C3_kv_put_get_roundtrip idCodec idCodec_faithful Memory.open_lmdb "db" "k"
      (Val.int 7)⟩

/-! ## Claim C4 -/

/-- C4: on a well-formed store, add fails with the already-exists error
exactly when the key is present and otherwise writes like put; update
fails with the not-found error exactly when the key is absent and
otherwise replaces the value; add after add on the same key errors; update
after delete on the same key errors; and a failing add or update returns
the store unchanged (the second component of each error case is the input
store). -/
theorem C4_add_update_semantics {β : Type} (c : Codec β) (hc : c.Faithful)
    (m : Memory β) (hw : Memory.wf c m = true) (db key : String)
    (v w : Val) :
    (m.hasKey db key = true →
        Memory.add c m db key v = (.error .alreadyExists, m)
      ∧ Memory.update c m db key v = (.ok (), Memory.put c m db key v))
  ∧ (m.hasKey db key = false →
        Memory.add c m db key v = (.ok (), Memory.put c m db key v)
      ∧ Memory.update c m db key v = (.error .notFound, m))
  ∧ (Memory.add c ((Memory.add c m db key v).2) db key w).1
      = .error .alreadyExists
  ∧ Memory.update c (Memory.delete m db key) db key v
      = (.error .notFound, Memory.delete m db key) := by
  refine ⟨?_, ?_, ?_, ?_⟩
  · intro h
    constructor <;>
      simp [Memory.add, Memory.update, existsKey_eq_hasKey hw, h]
  · intro h
    constructor <;>
      simp [Memory.add, Memory.update, existsKey_eq_hasKey hw, h]
  · cases h : m.hasKey db key with
    | true =>
      have h1 : Memory.add c m db key v = (.error .alreadyExists, m) := by
        simp [Memory.add, existsKey_eq_hasKey hw, h]
      rw [h1]
      simp [Memory.add, existsKey_eq_hasKey hw, h]
    | false =>
      have h1 : Memory.add c m db key v = (.ok (), Memory.put c m db key v) := by
        simp [Memory.add, existsKey_eq_hasKey hw, h]
      rw [h1]
      simp [Memory.add, existsKey_eq_hasKey (wf_put hc hw db key v),
        hasKey_put_self]
  · have h1 : Memory.existsKey c (Memory.delete m db key) db key = .ok false := by
      simp [Memory.existsKey, Memory.get, get_raw_delete_self, Except.map]
    simp [Memory.update, h1]

theorem C4_add_update_semantics_witness :
    Memory.wf idCodec
        (Memory.put idCodec (Memory.memory) "db" "k" Val.null) = true
  ∧ (Memory.put idCodec (Memory.memory) "db" "k" Val.null).hasKey "db" "k"
      = true
  ∧ Memory.add idCodec (Memory.put idCodec (Memory.memory) "db" "k" Val.null)
        "db" "k" (Val.int 1)
      = (.error .alreadyExists,
         Memory.put idCodec (Memory.memory) "db" "k" Val.null)
  ∧ (Memory.memory : Memory Val).hasKey "db" "k" = false
  ∧ Memory.add idCodec (Memory.memory) "db" "k" (Val.int 1)
      = (.ok (), Memory.put idCodec (Memory.memory) "db" "k" (Val.int 1))
  ∧ Memory.update idCodec
        (Memory.delete (Memory.put idCodec (Memory.memory) "db" "k" Val.null)
          "db" "k") "db" "k" (Val.int 1)
      = (.error .notFound,
         Memory.delete (Memory.put idCodec (Memory.memory) "db" "k" Val.null)
           "db" "k") :=
  ⟨rfl, rfl,
   ((C4_add_update_semantics idCodec idCodec_faithful
      (Memory.put idCodec (Memory.memory) "db" "k" Val.null) rfl "db" "k"
      (Val.int 1) (Val.int 1)).1 rfl).1,
   rfl,
   ((C4_add_update_semantics idCodec idCodec_faithful (Memory.memory) rfl
      "db" "k" (Val.int 1) (Val.int 1)).2.1 rfl).1,
   (C4_add_update_semantics idCodec idCodec_faithful
      (Memory.put idCodec (Memory.memory) "db" "k" Val.null) rfl "db" "k"
      (Val.int 1) (Val.int 1)).2.2.2⟩

/-! ## Claim C5 -/

theorem objLookup_objInsert (k : String) (v : Val) (f : String) :
    ∀ fields, Val.objLookup (Val.objInsert fields k v) f
      = if k == f then some v else Val.objLookup fields f := by
  intro fields
  induction fields with
  | nil => simp [Val.objInsert, Val.objLookup]
  | cons kv rest ih =>
    obtain ⟨a, b⟩ := kv
    by_cases h : a = k
    · subst h
      by_cases h2 : a = f
      · subst h2
        simp [Val.objInsert, Val.objLookup]
      · simp [Val.objInsert, Val.objLookup, h2]
    · by_cases h2 : k = f
      · subst h2
        simp [Val.objInsert, Val.objLookup, h, ih]
      · simp [Val.objInsert, Val.objLookup, h, h2, ih]

theorem objLookup_applyUpdates :
    ∀ (updates fields : List (String × Val)) (f : String),
      Val.objLookup (Memory.applyUpdates fields updates) f
        = (Memory.lastUpdate updates f).or (Val.objLookup fields f)
  | [], fields, f => by
    simp [Memory.applyUpdates, Memory.lastUpdate, Option.or]
  | kv :: rest, fields, f => by
    have ih := objLookup_applyUpdates rest (Val.objInsert fields kv.1 kv.2) f
    simp only [Memory.applyUpdates, List.foldl_cons] at ih ⊢
    rw [ih, objLookup_objInsert]
    simp only [Memory.lastUpdate, List.reverse_cons, List.find?_append]
    cases hr : (rest.reverse.find? fun p => p.1 == f) with
    | some p => simp [Option.or]
    | none =>
      cases hk : (kv.1 == f) with
      | true => simp [List.find?, hk, Option.or]
      | false => simp [List.find?, hk, Option.or]

/-- C5: patch fails with the not-found error when the key is absent and
with the type-mismatch error when the stored value is not a structured
object (in particular after putting the number 42), leaving the store
unchanged in both cases; when the stored value is an object, it writes
back the object with each listed field inserted or overwritten (the last
listed update for a field wins, other fields are untouched). -/
theorem C5_patch_semantics {β : Type} (c : Codec β) (hc : c.Faithful)
    (m : Memory β) (db key : String) (updates : List (String × Val)) :
    (m.hasKey db key = false →
        Memory.patch c m db key updates = (.error .notFound, m))
  ∧ (∀ x, Memory.get c m db key = .ok (some x) → (∀ fs, x ≠ Val.obj fs) →
        Memory.patch c m db key updates = (.error .typeMismatch, m))
  ∧ (∀ fields, Memory.get c m db key = .ok (some (Val.obj fields)) →
        Memory.patch c m db key updates
          = (.ok (), Memory.put c m db key
              (Val.obj (Memory.applyUpdates fields updates)))
      ∧ ∀ f, Val.objLookup (Memory.applyUpdates fields updates) f
          = (Memory.lastUpdate updates f).or (Val.objLookup fields f))
  ∧ Memory.patch c (Memory.put c m db key (Val.int 42)) db key updates
      = (.error .typeMismatch, Memory.put c m db key (Val.int 42)) := by
  refine ⟨?_, ?_, ?_, ?_⟩
  · intro h
    have hr : m.get_raw db key = none := by
      cases hr : m.get_raw db key with
      | none => rfl
      | some b => rw [Memory.hasKey, hr] at h; simp at h
    simp [Memory.patch, Memory.get, hr]
  · intro x hget hx
    cases x with
    | obj fs => exact absurd rfl (hx fs)
    | null => simp [Memory.patch, hget]
    | bool b => simp [Memory.patch, hget]
    | int n => simp [Memory.patch, hget]
    | str s => simp [Memory.patch, hget]
    | arr items => simp [Memory.patch, hget]
  · intro fields hget
    refine ⟨by simp [Memory.patch, hget], fun f => objLookup_applyUpdates _ _ _⟩
  · have hget := get_put_self hc m db key (Val.int 42)
    simp [Memory.patch, hget]

theorem C5_patch_semantics_witness :
    (Memory.memory : Memory Val).hasKey "db" "k" = false
  ∧ Memory.patch idCodec (Memory.memory) "db" "k" [("field", Val.str "v")]
      = (.error .notFound, Memory.memory)
  ∧ Memory.patch idCodec
        (Memory.put idCodec (Memory.memory) "db" "k" (Val.int 42)) "db" "k"
        [("field", Val.str "v")]
      = (.error .typeMismatch,
         Memory.put idCodec (Memory.memory) "db" "k" (Val.int 42))
  ∧ Memory.patch idCodec
        (Memory.put idCodec (Memory.memory) "db" "k"
          (Val.obj [("a", Val.int 1)])) "db" "k" [("field", Val.str "v")]
      = (.ok (), Memory.put idCodec
          (Memory.put idCodec (Memory.memory) "db" "k"
            (Val.obj [("a", Val.int 1)])) "db" "k"
          (Val.obj [("a", Val.int 1), ("field", Val.str "v")])) :=
  ⟨rfl,
   (C5_patch_semantics idCodec idCodec_faithful Memory.memory "db" "k"
      [("field", Val.str "v")]).1 rfl,
   (C5_patch_semantics idCodec idCodec_faithful Memory.memory "db" "k"
      [("field", Val.str "v")]).2.2.2,
   ((C5_patch_semantics idCodec idCodec_faithful
      (Memory.put idCodec (Memory.memory) "db" "k"
        (Val.obj [("a", Val.int 1)])) "db" "k"
      [("field", Val.str "v")]).2.2.1 [("a", Val.int 1)] rfl).1⟩

/-! ## Claim C7 -/

/-- C7: for every mapper whose service has context paths enabled, the key
inserted into the service trie is the mapper key with trailing slashes
stripped and a leading slash inserted if missing, with the wildcard suffix
appended (the first conjunct exposes the inserted key as normalizeKey);
consequently two context paths differing only in a trailing slash produce
the same trie key (second conjunct). -/
theorem C7_trie_key_normalization :
    (∀ (r : Models.BullGRouter) (m : Models.ServiceMapper)
       (rest : List Models.ServiceMapper),
        m.value.context_paths.enable = true →
        Models.BullGRouter.add_service_mapper r (m :: rest)
          = Models.BullGRouter.add_service_mapper
              ⟨Models.trieInsert r.services (Models.normalizeKey m.key) m.value,
               r.default_services⟩ rest)
  ∧ ∀ k : String, Models.normalizeKey (k ++ "/") = Models.normalizeKey k := by
  constructor
  · intro r m rest h
    simp [Models.BullGRouter.add_service_mapper, h]
  · intro k
    have ht : Models.trimTrailingSlashes (k ++ "/")
        = Models.trimTrailingSlashes k := by
      obtain ⟨l⟩ := k
      show Models.trimTrailingSlashes ⟨l ++ ['/']⟩ = _
      simp [Models.trimTrailingSlashes, List.dropWhile]
    simp [Models.normalizeKey, ht]

theorem C7_trie_key_normalization_witness :
    Models.normalizeKey ("/api" ++ "/") = Models.normalizeKey "/api"
  ∧ Models.BullGRouter.add_service_mapper Models.BullGRouter.new
        [{ key := "/api/", value := Examples.svcA }]
      = Models.BullGRouter.add_service_mapper
          ⟨Models.trieInsert Models.BullGRouter.new.services
              (Models.normalizeKey "/api/") Examples.svcA,
           Models.BullGRouter.new.default_services⟩ [] :=
  ⟨C7_trie_key_normalization.2 "/api",
   C7_trie_key_normalization.1 Models.BullGRouter.new
     { key := "/api/", value := Examples.svcA } [] rfl⟩

/-! ## Claim C1 -/

/-- Entries already present in the service trie survive an insertion. -/
theorem trieInsert_mem {e : String × Models.Service}
    {l : List (String × Models.Service)} {k : String} {v : Models.Service}
    (h : e ∈ l) : e ∈ Models.trieInsert l k v := by
  unfold Models.trieInsert
  split
  · exact h
  · exact List.mem_append_left _ h

/-- Adding service mappers never removes an existing trie entry or
fallback service. -/
theorem add_service_mapper_preserves :
    ∀ (maps : List Models.ServiceMapper) (r : Models.BullGRouter),
      (∀ e ∈ r.services,
        e ∈ (Models.BullGRouter.add_service_mapper r maps).services)
    ∧ ∀ s ∈ r.default_services,
        s ∈ (Models.BullGRouter.add_service_mapper r maps).default_services := by
  intro maps
  induction maps with
  | nil =>
    intro r
    exact ⟨fun e he => he, fun s hsv => hsv⟩
  | cons m rest ih =>
    intro r
    cases he : m.value.context_paths.enable with
    | true =>
      have hstep : Models.BullGRouter.add_service_mapper r (m :: rest)
          = Models.BullGRouter.add_service_mapper
              { r with
                services := Models.trieInsert r.services
                  (Models.normalizeKey m.key) m.value }
              rest := by
        simp [Models.BullGRouter.add_service_mapper, he]
      rw [hstep]
      refine ⟨fun e hmem => (ih _).1 e (trieInsert_mem hmem),
              fun s hsv => (ih _).2 s hsv⟩
    | false =>
      have hstep : Models.BullGRouter.add_service_mapper r (m :: rest)
          = Models.BullGRouter.add_service_mapper
              { r with
                default_services := r.default_services ++ [m.value] }
              rest := by
        simp [Models.BullGRouter.add_service_mapper, he]
      rw [hstep]
      refine ⟨fun e hmem => (ih _).1 e hmem,
              fun s hsv => (ih _).2 s (List.mem_append_left _ hsv)⟩

/-- C1 counterexample: running state built from snapshot A (one service
with context path /a), new snapshot B (no services).  After applying B the
router still holds the trie entry of A, while a router freshly built from
B alone is empty, so the updated router differs from the fresh rebuild and
keeps serving content of A. -/
theorem C1_update_not_fresh_rebuild_cex :
    (Models.updateConfigRouter (Models.routerOfSnapshot Examples.tmplA)
        Examples.tmplB).services.map Prod.fst = ["/a/{*routes}"]
  ∧ (Models.routerOfSnapshot Examples.tmplB).services.map Prod.fst = []
  ∧ Models.updateConfigRouter (Models.routerOfSnapshot Examples.tmplA)
        Examples.tmplB
      ≠ Models.routerOfSnapshot Examples.tmplB := by
  refine ⟨rfl, rfl, fun h => ?_⟩
  exact absurd
    (congrArg (fun r : Models.BullGRouter => r.services.map Prod.fst) h)
    (by decide)

/-- C1 amended: applying a new configuration snapshot does not replace the
router's structures wholesale: update_config inserts the new snapshot's
mappers into the existing router (an insert whose normalized key is
already registered is discarded, keeping the old entry) and appends its
fallback services, while every trie entry and every fallback service from
the previous snapshot is retained, so the updated router in general
contains services from both snapshots and differs from a router freshly
built from the new snapshot alone. -/
theorem C1_update_config_retains_old_router (r : Models.BullGRouter)
    (t : Models.ServicesTemplate) :
    (∀ e ∈ r.services, e ∈ (Models.updateConfigRouter r t).services)
  ∧ ∀ s ∈ r.default_services,
      s ∈ (Models.updateConfigRouter r t).default_services :=
  add_service_mapper_preserves (Models.getServicesMapVec t) r

theorem C1_update_config_retains_old_router_witness :
    ("/a/{*routes}", Models.Service.build_router Examples.svcA)
      ∈ (Models.updateConfigRouter (Models.routerOfSnapshot Examples.tmplA)
          Examples.tmplB).services :=
  (C1_update_config_retains_old_router
      (Models.routerOfSnapshot Examples.tmplA) Examples.tmplB).1
    ("/a/{*routes}", Models.Service.build_router Examples.svcA)
    (List.mem_singleton.mpr rfl)

/-! ## Claim C6 -/

theorem lookupD_pushEntry_mono {l : List (String × List String)}
    {k2 y k x : String} (h : x ∈ (alookup l k).getD []) :
    x ∈ (alookup (Models.pushEntry l k2 y) k).getD [] := by
  induction l with
  | nil => simp [alookup] at h
  | cons kv rest ih =>
    cases h2 : (kv.1 == k2) with
    | true =>
      cases hk : (kv.1 == k) with
      | true =>
        simp only [alookup, hk, if_true, Option.getD_some] at h
        simp only [Models.pushEntry, h2, if_true, alookup, hk,
          Option.getD_some]
        exact List.mem_append_left _ h
      | false =>
        simp only [alookup, hk] at h
        simpa [Models.pushEntry, h2, alookup, hk] using h
    | false =>
      cases hk : (kv.1 == k) with
      | true =>
        simp only [alookup, hk, if_true, Option.getD_some] at h
        simpa [Models.pushEntry, h2, alookup, hk] using h
      | false =>
        simp only [alookup, hk] at h
        simpa [Models.pushEntry, h2, alookup, hk] using ih h

theorem lookupD_pushEntry_self (l : List (String × List String))
    (k x : String) : x ∈ (alookup (Models.pushEntry l k x) k).getD [] := by
  induction l with
  | nil => simp [Models.pushEntry, alookup]
  | cons kv rest ih =>
    cases h2 : (kv.1 == k) with
    | true => simp [Models.pushEntry, h2, alookup]
    | false => simpa [Models.pushEntry, h2, alookup] using ih

theorem lookupD_foldl_pushEntry_mono (f : String → String)
    (vs : List String) (acc : List (String × List String)) (k x : String)
    (h : x ∈ (alookup acc k).getD []) :
    x ∈ (alookup (vs.foldl (fun a v => Models.pushEntry a v (f v)) acc)
          k).getD [] := by
  induction vs generalizing acc with
  | nil => exact h
  | cons v rest ih => exact ih _ (lookupD_pushEntry_mono h)

theorem lookupD_foldl_pushEntry_self (f : String → String) :
    ∀ (vs : List String) (acc : List (String × List String)) (v : String),
      v ∈ vs →
      f v ∈ (alookup (vs.foldl (fun a u => Models.pushEntry a u (f u)) acc)
              v).getD [] := by
  intro vs
  induction vs with
  | nil => intro acc v hv; cases hv
  | cons u rest ih =>
    intro acc v hv
    rcases List.mem_cons.mp hv with h | h
    · subst h
      exact lookupD_foldl_pushEntry_mono f rest _ _ _
        (lookupD_pushEntry_self acc v (f v))
    · exact ih _ _ h

theorem pvpStep_mono {acc : List (String × List String)}
    {bc : String × List String} {k x : String}
    (h : x ∈ (alookup acc k).getD []) :
    x ∈ (alookup (Models.pvpStep acc bc) k).getD [] := by
  by_cases hl : bc.2.length > 1
  · simp only [Models.pvpStep, if_pos hl]
    exact lookupD_foldl_pushEntry_mono _ _ _ _ _ h
  · simp only [Models.pvpStep, if_neg hl]
    cases hbc : bc.2 with
    | nil => simpa using h
    | cons v tail =>
      cases tail with
      | nil => exact lookupD_pushEntry_mono h
      | cons w t2 => simpa using h

theorem pvpStep_multi_self {acc : List (String × List String)}
    {base : String} {covered : List String} {v : String}
    (hl : covered.length > 1) (hv : v ∈ covered) :
    (Models.trimTrailingSlashes base ++ "/" ++ v ++ "/")
      ∈ (alookup (Models.pvpStep acc (base, covered)) v).getD [] := by
  unfold Models.pvpStep
  rw [if_pos (show ((base, covered) : String × List String).2.length > 1
    from hl)]
  exact lookupD_foldl_pushEntry_self
    (fun u => Models.trimTrailingSlashes base ++ "/" ++ u ++ "/")
    covered acc v hv

theorem pvpStep_single_self {acc : List (String × List String)}
    {base : String} {v : String} :
    base ∈ (alookup (Models.pvpStep acc (base, [v])) v).getD [] := by
  unfold Models.pvpStep
  rw [if_neg (show ¬(((base, [v]) : String × List String).2.length > 1)
    from by simp)]
  exact lookupD_pushEntry_self acc v base

theorem pvp_fold_mono :
    ∀ (entries : List (String × List String))
      (acc : List (String × List String)) (k x : String),
      x ∈ (alookup acc k).getD [] →
      x ∈ (alookup (entries.foldl Models.pvpStep acc) k).getD [] := by
  intro entries
  induction entries with
  | nil => intro acc k x h; exact h
  | cons e es ih => intro acc k x h; exact ih _ _ _ (pvpStep_mono h)

theorem pvp_fold_multi (base : String) (covered : List String) (v : String)
    (hl : covered.length > 1) (hv : v ∈ covered) :
    ∀ (entries : List (String × List String))
      (acc : List (String × List String)),
      (base, covered) ∈ entries →
      (Models.trimTrailingSlashes base ++ "/" ++ v ++ "/")
        ∈ (alookup (entries.foldl Models.pvpStep acc) v).getD [] := by
  intro entries
  induction entries with
  | nil => intro acc hm; cases hm
  | cons e es ih =>
    intro acc hm
    rcases List.mem_cons.mp hm with h | h
    · subst h
      exact pvp_fold_mono es _ _ _ (pvpStep_multi_self hl hv)
    · exact ih _ h

theorem pvp_fold_single (base v : String) :
    ∀ (entries : List (String × List String))
      (acc : List (String × List String)),
      (base, [v]) ∈ entries →
      base ∈ (alookup (entries.foldl Models.pvpStep acc) v).getD [] := by
  intro entries
  induction entries with
  | nil => intro acc hm; cases hm
  | cons e es ih =>
    intro acc hm
    rcases List.mem_cons.mp hm with h | h
    · subst h
      exact pvp_fold_mono es _ _ _ pvpStep_single_self
    · exact ih _ h

/-- C6: in the snapshot-to-router projection, a (base path, covered
versions) pair covering more than one version extends each covered
version's path list with the base path (trailing slashes trimmed) followed
by slash-version-slash, and a pair covering exactly one version
contributes the base path verbatim; the svcApi example (versions v1 and
v2, one context path /api covering both) projects exactly the mapper keys
/api/v1/ and /api/v2/, which the router inserts as /api/v1/\x7b*routes\x7d
and /api/v2/\x7b*routes\x7d. -/
theorem C6_per_version_projection :
    (∀ (s : Models.Service) (base : String) (covered : List String)
       (v : String),
        (base, covered) ∈ Models.pathToVersions s → covered.length > 1 →
        v ∈ covered →
        (Models.trimTrailingSlashes base ++ "/" ++ v ++ "/")
          ∈ (alookup (Models.perVersionPaths s) v).getD [])
  ∧ (∀ (s : Models.Service) (base : String) (v : String),
        (base, [v]) ∈ Models.pathToVersions s →
        base ∈ (alookup (Models.perVersionPaths s) v).getD [])
  ∧ (Models.getServiceMaps Examples.svcApi).map Models.ServiceMapper.key
      = ["/api/v1/", "/api/v2/"]
  ∧ (Models.BullGRouter.new.add_service_mapper
        (Models.getServiceMaps Examples.svcApi)).services.map Prod.fst
      = ["/api/v1/{*routes}", "/api/v2/{*routes}"] := by
  refine ⟨?_, ?_, rfl, rfl⟩
  · intro s base covered v hm hl hv
    exact pvp_fold_multi base covered v hl hv _ _ hm
  · intro s base v hm
    exact pvp_fold_single base v _ _ hm

theorem C6_per_version_projection_witness :
    ("/api", ["v1", "v2"]) ∈ Models.pathToVersions Examples.svcApi
  ∧ (["v1", "v2"] : List String).length > 1
  ∧ "v1" ∈ (["v1", "v2"] : List String)
  ∧ "/api/v1/"
      ∈ (alookup (Models.perVersionPaths Examples.svcApi) "v1").getD []
  ∧ ("/one", ["v1"]) ∈ Models.pathToVersions Examples.svcOne
  ∧ "/one" ∈ (alookup (Models.perVersionPaths Examples.svcOne) "v1").getD [] :=
  ⟨by decide, by decide, by decide,
   C6_per_version_projection.1 Examples.svcApi "/api" ["v1", "v2"] "v1"
     (by decide) (by decide) (by decide),
   by decide,
   C6_per_version_projection.2.1 Examples.svcOne "/one" "v1" (by decide)⟩

/-! ## Claim C2 -/

/-- C2: for every request whose pre-phase chain sets the response-status
cell, the remaining pre-phase entries are not invoked (first conjunct: the
chain breaks at the invocation that leaves the status set, returning the
unexamined entries untouched with only that entry in the invocation
trace), the upstream is never contacted, and the response is synthesized
directly from the context's status and body (second conjunct: handle
returns the identity-header-wrapped simple response built from the
post-chain context's status and body, with the upstream-contacted flag
false). -/
theorem C2_pre_short_circuit :
    (∀ (plugins : List Gw.PluginImpl) (ctx : Gw.BullGContext)
       (ap : Gw.AppliedPlugin) (rest : List Gw.AppliedPlugin)
       (p : Gw.PluginImpl),
        plugins.find? (fun q => q.name == ap.name && q.phase == Gw.Phase.pre)
          = some p →
        ((p.apply ctx ap.config).2).status.isSome = true →
        Gw.runPlugins plugins Gw.Phase.pre ctx (ap :: rest)
          = ((p.apply ctx ap.config).2, [ap.name], rest))
  ∧ (∀ (gw : Gw.Gateway) (parseUrl : String → Gw.Url)
       (send : Gw.UpstreamReq → Option Gw.UpstreamResp)
       (requestId : String) (latencyUs latencyMs : Nat) (year : Int)
       (req : Gw.Request) (code : Nat),
        (Gw.runPlugins gw.plugins Gw.Phase.pre
          (Gw.BullGContext.new req.method req.path req.query req.headers
            req.body) gw.global_plugins).1.status = some code →
        Gw.handle gw parseUrl send requestId latencyUs latencyMs year req
          = (Gw.defaultHeaders gw requestId latencyUs latencyMs
              (Gw.simple code
                (Gw.runPlugins gw.plugins Gw.Phase.pre
                  (Gw.BullGContext.new req.method req.path req.query
                    req.headers req.body) gw.global_plugins).1.body),
             false)) := by
  constructor
  · intro plugins ctx ap rest p hfind hstatus
    simp [Gw.runPlugins, hfind, hstatus]
  · intro gw parseUrl send requestId latencyUs latencyMs year req code h
    simp only [Gw.handle, h]

theorem C2_pre_short_circuit_witness :
    Gw.runPlugins (Gw.builtin Examples.lib0) Gw.Phase.pre
        (Gw.BullGContext.new "GET" "/anything" none [] "")
        [Examples.termEntry]
      = ({ method := "GET", uriPath := "/anything", uriQuery := none,
           headers := [], body := "nope", status := some 418 },
         ["request_termination"], [])
  ∧ Gw.handle Examples.gw0 Examples.parseUrl0 Examples.send0 "rid" 5 1 2026
        Examples.req0
      = (Gw.defaultHeaders Examples.gw0 "rid" 5 1 (Gw.simple 418 "nope"),
         false) :=
  ⟨C2_pre_short_circuit.1 (Gw.builtin Examples.lib0)
      (Gw.BullGContext.new "GET" "/anything" none [] "") Examples.termEntry
      []
      { name := "request_termination", phase := .pre,
        apply := Gw.requestTerminationApply } rfl rfl,
   C2_pre_short_circuit.2 Examples.gw0 Examples.parseUrl0 Examples.send0
     "rid" 5 1 2026 Examples.req0 418 rfl⟩

/-! ## Claim C9 -/

/-- C9: an applied entry is invoked exactly when some registered
implementation has the entry's name and that implementation's declared
default phase equals the executing phase (first conjunct, phrased on the
invocation trace of a one-entry chain); the entry's own phase field never
influences selection: two chains whose entries agree on name and config
produce the same context and the same invocation trace in every phase,
whatever their phase fields say (second conjunct). -/
theorem C9_plugin_selection :
    (∀ (plugins : List Gw.PluginImpl) (ph : Gw.Phase)
       (ctx : Gw.BullGContext) (ap : Gw.AppliedPlugin),
        (Gw.runPlugins plugins ph ctx [ap]).2.1 ≠ []
          ↔ ∃ p ∈ plugins, p.name = ap.name ∧ p.phase = ph)
  ∧ (∀ (plugins : List Gw.PluginImpl) (ph : Gw.Phase)
       (ctx : Gw.BullGContext) (l1 l2 : List Gw.AppliedPlugin),
        List.Forall₂ (fun a b : Gw.AppliedPlugin =>
          a.name = b.name ∧ a.config = b.config) l1 l2 →
        (Gw.runPlugins plugins ph ctx l1).1
            = (Gw.runPlugins plugins ph ctx l2).1
        ∧ (Gw.runPlugins plugins ph ctx l1).2.1
            = (Gw.runPlugins plugins ph ctx l2).2.1) := by
  constructor
  · intro plugins ph ctx ap
    cases hf : plugins.find?
        (fun q => q.name == ap.name && q.phase == ph) with
    | none =>
      have hno := List.find?_eq_none.mp hf
      simp only [Gw.runPlugins, hf]
      constructor
      · intro h
        exact absurd rfl h
      · rintro ⟨p, hp, h1, h2⟩
        exact absurd (by simp [h1, h2]) (hno p hp)
    | some p =>
      have hmem := List.mem_of_find?_eq_some hf
      have hpred := List.find?_some hf
      simp only [Bool.and_eq_true, beq_iff_eq] at hpred
      simp only [Gw.runPlugins, hf]
      constructor
      · intro _
        exact ⟨p, hmem, hpred.1, hpred.2⟩
      · intro _
        by_cases hc : (((p.apply ctx ap.config).2.status.isSome
            && ph == Gw.Phase.pre) = true)
        · simp [hc]
        · simp [hc]
  · intro plugins ph ctx l1 l2 hrel
    induction hrel generalizing ctx with
    | nil => exact ⟨rfl, rfl⟩
    | @cons a b as bs hab htail ih =>
      obtain ⟨hname, hconfig⟩ := hab
      simp only [Gw.runPlugins, hname, hconfig]
      cases hf : plugins.find?
          (fun q => q.name == b.name && q.phase == ph) with
      | none => exact ih ctx
      | some p =>
        by_cases hc : (((p.apply ctx b.config).2.status.isSome
            && ph == Gw.Phase.pre) = true)
        · simp [hc]
        · simp only [hc, if_false, Bool.false_eq_true]
          exact ⟨(ih (p.apply ctx b.config).2).1,
            by rw [(ih (p.apply ctx b.config).2).2]⟩

theorem C9_plugin_selection_witness :
    ((Gw.runPlugins (Gw.builtin Examples.lib0) Gw.Phase.pre
        (Gw.BullGContext.new "GET" "/x" none [] "")
        [{ name := "cors", phase := "post", config := Val.obj [] }]).2.1 ≠ []
      ↔ ∃ p ∈ Gw.builtin Examples.lib0,
          p.name = "cors" ∧ p.phase = Gw.Phase.pre)
  ∧ (Gw.runPlugins (Gw.builtin Examples.lib0) Gw.Phase.pre
        (Gw.BullGContext.new "GET" "/x" none [] "")
        [{ name := "cors", phase := "post", config := Val.obj [] }]).1
      = (Gw.runPlugins (Gw.builtin Examples.lib0) Gw.Phase.pre
          (Gw.BullGContext.new "GET" "/x" none [] "")
          [{ name := "cors", phase := "pre", config := Val.obj [] }]).1 :=
  ⟨C9_plugin_selection.1 (Gw.builtin Examples.lib0) Gw.Phase.pre
      (Gw.BullGContext.new "GET" "/x" none [] "")
      { name := "cors", phase := "post", config := Val.obj [] },
   (C9_plugin_selection.2 (Gw.builtin Examples.lib0) Gw.Phase.pre
      (Gw.BullGContext.new "GET" "/x" none [] "")
      [{ name := "cors", phase := "post", config := Val.obj [] }]
      [{ name := "cors", phase := "pre", config := Val.obj [] }]
      (List.forall₂_cons.mpr ⟨⟨rfl, rfl⟩, List.Forall₂.nil⟩)).1⟩

/-! ## Claim C10 -/

/-- C10: when the basic_auth configuration has no user key or its value is
the empty string, apply succeeds immediately and returns the context
entirely unchanged — in particular no response status is set and the
result does not depend on the Authorization header, so every request
passes. -/
theorem C10_basic_auth_empty_user (lib : Gw.ExternLib)
    (ctx : Gw.BullGContext) (cfg : Val)
    (h : cfg.get "user" = none ∨ (cfg.get "user").bind Val.asStr = some "") :
    Gw.basicAuthApply lib ctx cfg = (none, ctx) := by
  have hu : ((cfg.get "user").bind Val.asStr).getD "" = "" := by
    rcases h with h | h <;> simp [h]
  simp [Gw.basicAuthApply, hu]

theorem C10_basic_auth_empty_user_witness :
    Gw.basicAuthApply Examples.lib0
        { method := "GET", uriPath := "/x", uriQuery := none,
          headers := [("authorization", "Basic dTp3cm9uZw==")], body := "",
          status := none }
        (Val.obj [("pass", Val.str "p")])
      = (none,
         { method := "GET", uriPath := "/x", uriQuery := none,
           headers := [("authorization", "Basic dTp3cm9uZw==")], body := "",
           status := none }) :=
  C10_basic_auth_empty_user Examples.lib0
    { method := "GET", uriPath := "/x", uriQuery := none,
      headers := [("authorization", "Basic dTp3cm9uZw==")], body := "",
      status := none }
    (Val.obj [("pass", Val.str "p")]) (Or.inl rfl)

/-! ## Claim C8 -/

theorem tryWs_append {σ : Type} (b64 : List Nat → Option (List Nat))
    (parse : List Nat → Option σ) :
    ∀ (msgs1 msgs2 : List (Except Unit Sync.Frame)) (sts : List σ),
      Sync.tryWs b64 parse msgs1 = (sts, .ok ()) →
      Sync.tryWs b64 parse (msgs1 ++ msgs2)
        = (sts ++ (Sync.tryWs b64 parse msgs2).1,
           (Sync.tryWs b64 parse msgs2).2) := by
  intro msgs1
  induction msgs1 with
  | nil =>
    intro msgs2 sts h
    simp only [Sync.tryWs, Prod.mk.injEq] at h
    simp [← h.1]
  | cons m rest ih =>
    intro msgs2 sts h
    match m with
    | .error e => simp [Sync.tryWs] at h
    | .ok .other =>
      simp only [Sync.tryWs, List.cons_append] at h ⊢
      exact ih msgs2 sts h
    | .ok (.binary d) =>
      simp only [Sync.tryWs, List.cons_append] at h ⊢
      cases hb : b64 d with
      | none => simp [hb] at h
      | some bytes =>
        cases hp : parse bytes with
        | none => simp [hb, hp] at h
        | some st =>
          simp only [hb, hp, Prod.mk.injEq] at h ⊢
          simp only [List.append_eq]
          obtain ⟨h1, h2⟩ := h
          have hr : Sync.tryWs b64 parse rest
              = ((Sync.tryWs b64 parse rest).1, Except.ok ()) := by
            rw [← h2]
          rw [ih msgs2 (Sync.tryWs b64 parse rest).1 hr]
          simp [← h1]

/-- C8 counterexample: over a stream holding a frame that fails to decode
followed by a frame that decodes fully, the read loop stops at the bad
frame with an error: nothing is delivered to the callback, and in
particular the subsequent good frame — which decodes to gsGood — is never
read, so decode failures are not skipped and the streaming subscription
does not keep reading. -/
theorem C8_decode_error_terminates_stream_cex :
    Sync.tryWs Examples.b64c Examples.parsec
        [Except.ok (Sync.Frame.binary [9]), Except.ok (Sync.Frame.binary [1])]
      = ([], .error .decodeB64)
  ∧ Examples.gsGood ∉
      (Sync.tryWs Examples.b64c Examples.parsec
        [Except.ok (Sync.Frame.binary [9]),
         Except.ok (Sync.Frame.binary [1])]).1
  ∧ (Examples.b64c [1]).bind Examples.parsec = some Examples.gsGood := by
  refine ⟨rfl, ?_, rfl⟩
  have he : (Sync.tryWs Examples.b64c Examples.parsec
      [Except.ok (Sync.Frame.binary [9]),
       Except.ok (Sync.Frame.binary [1])]).1 = ([] : List Gw.GatewayState) :=
    rfl
  rw [he]
  exact List.not_mem_nil _

/-- C8 amended: a received frame that fails to decode (base64 or
deserialization) terminates the current streaming subscription: the read
loop returns the error without reading the subsequent frames (run logs it
and falls back to polling, so the overall sync continues).  The
caller-supplied callback is invoked only with fully decoded snapshots:
every delivered state is the complete decode of one received binary frame,
never a partial one. -/
theorem C8_stream_decode_soundness {σ : Type}
    (b64 : List Nat → Option (List Nat)) (parse : List Nat → Option σ) :
    (∀ (msgs : List (Except Unit Sync.Frame)) (st : σ),
        st ∈ (Sync.tryWs b64 parse msgs).1 →
        ∃ d, Except.ok (Sync.Frame.binary d) ∈ msgs
          ∧ (b64 d).bind parse = some st)
  ∧ (∀ (msgs1 msgs2 : List (Except Unit Sync.Frame)) (d : List Nat)
       (sts : List σ),
        Sync.tryWs b64 parse msgs1 = (sts, .ok ()) →
        (b64 d).bind parse = none →
        (Sync.tryWs b64 parse
            (msgs1 ++ Except.ok (Sync.Frame.binary d) :: msgs2)).1 = sts
      ∧ ∃ e, (Sync.tryWs b64 parse
            (msgs1 ++ Except.ok (Sync.Frame.binary d) :: msgs2)).2
          = .error e) := by
  constructor
  · intro msgs
    induction msgs with
    | nil => intro st h; simp [Sync.tryWs] at h
    | cons m rest ih =>
      intro st h
      match m with
      | .error e => simp [Sync.tryWs] at h
      | .ok .other =>
        simp only [Sync.tryWs] at h
        obtain ⟨d, hd, hp⟩ := ih st h
        exact ⟨d, List.mem_cons_of_mem _ hd, hp⟩
      | .ok (.binary d) =>
        simp only [Sync.tryWs] at h
        cases hb : b64 d with
        | none => simp [hb] at h
        | some bytes =>
          cases hp : parse bytes with
          | none => simp [hb, hp] at h
          | some st2 =>
            simp only [hb, hp, List.mem_cons] at h
            rcases h with h | h
            · subst h
              exact ⟨d, List.mem_cons_self _ _, by simp [hb, hp]⟩
            · obtain ⟨d2, hd2, hp2⟩ := ih st h
              exact ⟨d2, List.mem_cons_of_mem _ hd2, hp2⟩
  · intro msgs1 msgs2 d sts hpre hfail
    rw [tryWs_append b64 parse msgs1
      (Except.ok (Sync.Frame.binary d) :: msgs2) sts hpre]
    cases hb : b64 d with
    | none => simp [Sync.tryWs, hb]
    | some bytes =>
      cases hp : parse bytes with
      | none => simp [Sync.tryWs, hb, hp]
      | some st => rw [hb] at hfail; simp [hp] at hfail

theorem C8_stream_decode_soundness_witness :
    Examples.gsGood
      ∈ (Sync.tryWs Examples.b64c Examples.parsec
          [Except.ok (Sync.Frame.binary [1])]).1
  ∧ (∃ d, Except.ok (Sync.Frame.binary d)
        ∈ ([Except.ok (Sync.Frame.binary [1])] :
            List (Except Unit Sync.Frame))
      ∧ (Examples.b64c d).bind Examples.parsec = some Examples.gsGood)
  ∧ (Sync.tryWs Examples.b64c Examples.parsec
        ([Except.ok (Sync.Frame.binary [1])]
          ++ Except.ok (Sync.Frame.binary [9])
            :: [Except.ok (Sync.Frame.binary [1])])).1
      = [Examples.gsGood]
  ∧ ∃ e, (Sync.tryWs Examples.b64c Examples.parsec
        ([Except.ok (Sync.Frame.binary [1])]
          ++ Except.ok (Sync.Frame.binary [9])
            :: [Except.ok (Sync.Frame.binary [1])])).2 = .error e := by
  have hmem : Examples.gsGood
      ∈ (Sync.tryWs Examples.b64c Examples.parsec
          [Except.ok (Sync.Frame.binary [1])]).1 := by
    have he : (Sync.tryWs Examples.b64c Examples.parsec
        [Except.ok (Sync.Frame.binary [1])]).1 = [Examples.gsGood] := rfl
    rw [he]
    exact List.mem_singleton.mpr rfl
  have hterm := (C8_stream_decode_soundness Examples.b64c Examples.parsec).2
    [Except.ok (Sync.Frame.binary [1])] [Except.ok (Sync.Frame.binary [1])]
    [9] [Examples.gsGood] rfl rfl
  exact ⟨hmem,
    (C8_stream_decode_soundness Examples.b64c Examples.parsec).1
      [Except.ok (Sync.Frame.binary [1])] Examples.gsGood hmem,
    hterm.1, hterm.2⟩

end BullGateway
